import Mathlib

/-!
# fancyquota / fysquota — shallow embedding and verification

A shallow embedding of the quota-reporting engine of `fancyquota.py`
(with the legacy `fysquota.py` where the claims cite it), and theorems
settling the specification claims about it.

Modelling conventions:
* Python dicts keyed by strings are association lists with first-match
  lookup (`List.lookup`); real mount dicts are duplicate-free, so first
  match and last-overwrite agree.
* A Python expression that can raise (`mp[fs]` KeyError, `ls[4]`
  IndexError, `int(...)` ValueError, `urlopen` network errors,
  ZeroDivisionError) is modelled with `Option`/`Except`, `none`/`.error`
  meaning the exception escapes.
* Python float arithmetic (`val /= 10.**15`, percent computations) is
  modelled exactly: the divisions performed by the code are by powers of
  ten of machine-int numerators, and the `%.1f` rendering is modelled as
  round-half-to-even of the exact rational, computed in integer
  arithmetic (`rheDiv`).  Percent values that the claims never inspect
  are carried as exact numerator/denominator pairs.
* The environment (login name, uid, group membership, `os.access`,
  `os.stat`, `os.statvfs`, the HTTP gateway, the date conversion
  `date.fromtimestamp`/`date.today`) is passed in as explicit
  parameters, `Option`-valued where the call can raise.
-/

namespace FancyQuota

/-! ## Python string primitives -/

/-- Whitespace characters recognised by Python's `str.split()`. -/
def isSpace (c : Char) : Bool :=
  c = ' ' || c = '\t' || c = '\n' || c = '\r'

/-- Is `pat` an initial segment of `s`?  (Used to implement `str.find`.) -/
def leadsWith : List Char → List Char → Bool
  | [], _ => true
  | _ :: _, [] => false
  | a :: as, b :: bs => a = b && leadsWith as bs

/-- Index of the first occurrence of `pat` in `s`, or `-1` — Python `s.find(pat)`. -/
def pyFindAux (pat : List Char) : List Char → ℤ → ℤ
  | [], i => if pat.isEmpty then i else -1
  | s@(_ :: t), i => if leadsWith pat s then i else pyFindAux pat t (i + 1)

def pyFind (s pat : String) : ℤ :=
  pyFindAux pat.toList s.toList 0

/-- Python `pat in s` (substring containment), i.e. `s.find(pat) != -1`. -/
def pyContains (s pat : String) : Bool :=
  pyFind s pat ≠ -1

/-- Python `s[:e]` for the index values the code produces (a non-negative
`find` result, or `-1` when the pattern was absent). -/
def pySliceTo (s : String) (e : ℤ) : String :=
  if e ≥ 0 then String.mk (s.toList.take e.toNat)
  else String.mk (s.toList.take (s.length - (-e).toNat))

/-- Python `s.split()` — split on runs of whitespace, discarding empty fields. -/
def pySplitAux : List Char → List Char → List String
  | [], cur => if cur.isEmpty then [] else [String.mk cur.reverse]
  | c :: t, cur =>
    if isSpace c then
      if cur.isEmpty then pySplitAux t []
      else String.mk cur.reverse :: pySplitAux t []
    else pySplitAux t (c :: cur)

def pySplit (s : String) : List String :=
  pySplitAux s.toList []

/-- Digit-string to number; `none` on empty or non-digit input. -/
def digitsToNat : List Char → Option ℕ
  | [] => none
  | cs => cs.foldlM (fun acc c => if c.isDigit then some (acc * 10 + (c.toNat - 48)) else none) 0

/-- Python `int(s)` on the whitespace-free tokens produced by `split()`. -/
def pyInt (s : String) : Option ℤ :=
  match s.toList with
  | '-' :: rest => (digitsToNat rest).map (fun n => -(n : ℤ))
  | '+' :: rest => (digitsToNat rest).map (fun n => (n : ℤ))
  | l => (digitsToNat l).map (fun n => (n : ℤ))

/-- Python `s.replace('*', '')`. -/
def stripStar (s : String) : String :=
  String.mk (s.toList.filter (fun c => c ≠ '*'))

/-- Python `s.strip()`. -/
def pyStrip (s : String) : String :=
  String.mk (((s.toList.dropWhile isSpace).reverse.dropWhile isSpace).reverse)

/-- `os.path.dirname` (posixpath): the part before the last `/`, with
trailing slashes stripped unless the head is all slashes. -/
def dirname (p : String) : String :=
  let cs := p.toList
  let head := (cs.reverse.dropWhile (fun c => c ≠ '/')).reverse
  let head' :=
    if head ≠ [] ∧ head.any (fun c => c ≠ '/') then
      (head.reverse.dropWhile (fun c => c = '/')).reverse
    else head
  String.mk head'

/-- `os.path.join a b` (posixpath, two arguments). -/
def joinPath (a b : String) : String :=
  if leadsWith ['/'] b.toList then b
  else if a = "" ∨ a.toList.getLast? = some '/' then a ++ b
  else a ++ "/" ++ b

/-! ## Mount table and the Mount Resolver (`map_fs`) -/

/-- The dict built by `read_mounts`: device ↦ (mountpoint, fstype). -/
abbrev MountMap := List (String × String × String)

/-- Dict lookup `mp[fs]`, `none` = KeyError. -/
def mget (m : MountMap) (k : String) : Option (String × String) :=
  m.lookup k

/-- `fancyquota.map_fs(fs, mp)`: build the parent-plus-username candidate
`fsme`; if it is a key, return its value, otherwise return `mp[fs]`
(which raises KeyError — `none` — when `fs` is not a key either).
`logname` is `os.getenv("LOGNAME")`. -/
def map_fs (fs : String) (mp : MountMap) (logname : String) : Option (String × String) :=
  let fschop := dirname fs
  let fsme := joinPath fschop logname
  match mget mp fsme with
  | some v => some v
  | none => mget mp fs

/-- The dict built by `fysquota.mp_env`: device ↦ environment-variable name. -/
abbrev FysMountMap := List (String × String)

/-- Python `s.split('/')` — split at every slash, keeping empty fields. -/
def splitSlashAux : List Char → List Char → List String
  | [], cur => [String.mk cur.reverse]
  | c :: t, cur =>
    if c = '/' then String.mk cur.reverse :: splitSlashAux t []
    else splitSlashAux t (c :: cur)

def splitSlash (s : String) : List String :=
  splitSlashAux s.toList []

/-- `'/'.join(s.split('/')[:-ii])` — the component-chopping step of
`fysquota.map_fs`. -/
def fys_chop (s : String) (ii : ℕ) : String :=
  let l := splitSlash s
  String.intercalate "/" (l.take (l.length - ii))

/-- The chopping loop of `fysquota.map_fs`: for `ii = 1, …, len(fss)-1`
in order, return the value of the first key whose `ii`-chopped form
equals the `ii`-chopped form of `fs`.  `fuel` counts the remaining
iterations; the iteration performed at fuel `n+1` is
`ii = total - n` where `total = len(fss) - 1`. -/
def fys_chop_loop (fs : String) (mp : FysMountMap) (total : ℕ) : ℕ → Option String
  | 0 => none
  | (n + 1) =>
    let ii := total - n
    match (mp.find? (fun kv => fys_chop kv.1 ii = fys_chop fs ii)).map Prod.snd with
    | some v => some v
    | none => fys_chop_loop fs mp total n

/-- `fysquota.map_fs(fs)`: exact key match first, then chop path components
from the end of both `fs` and each key, and finally fall back to `fs`. -/
def fys_map_fs (fs : String) (mp : FysMountMap) : String :=
  match mp.lookup fs with
  | some v => v
  | none =>
    let fss := splitSlash fs
    match fys_chop_loop fs mp (fss.length - 1) (fss.length - 1) with
    | some v => v
    | none => fs

/-! ## Unit formatting — `size_to_human` (claim C7)

`size_to_human` divides by a power of ten (`val /= 10.**k`) and renders
with `'%6.1f%s'`.  The division and the `%.1f` rounding are modelled in
exact integer arithmetic: `rheDiv (num * 10) d` is the one-decimal
round-half-to-even of the rational `num / d`, which is the value printf
renders whenever the float is exact (as it is at the claim's inputs). -/

/-- Round-half-to-even of `num / d` for `d > 0`. -/
def rheDiv (num d : ℤ) : ℤ :=
  let f := num.ediv d
  let r := num.emod d
  if 2 * r < d then f
  else if 2 * r > d then f + 1
  else if f % 2 = 0 then f else f + 1

/-- `'%.1f' % (num / d)` under exact rational semantics. -/
def fmtFixed1 (num d : ℤ) : String :=
  let n := rheDiv (num * 10) d
  let m := n.natAbs
  let core := toString (m / 10) ++ "." ++ toString (m % 10)
  if n < 0 then "-" ++ core else core

/-- The width-6 right-justification of `'%6.1f'`. -/
def pad6 (s : String) : String :=
  if s.length < 6 then String.mk (List.replicate (6 - s.length) ' ') ++ s else s

/-- `fancyquota.size_to_human`. -/
def size_to_human (val : ℤ) : String :=
  if val ≥ 10 ^ 15 then pad6 (fmtFixed1 val (10 ^ 15)) ++ "P"
  else if val ≥ 10 ^ 12 then pad6 (fmtFixed1 val (10 ^ 12)) ++ "T"
  else if val ≥ 10 ^ 9 then pad6 (fmtFixed1 val (10 ^ 9)) ++ "G"
  else if val ≥ 10 ^ 6 then pad6 (fmtFixed1 val (10 ^ 6)) ++ "M"
  else if val ≥ 10 ^ 3 then pad6 (fmtFixed1 val (10 ^ 3)) ++ "k"
  else pad6 (fmtFixed1 val 1)

/-- Modelled from the spec's words (for the refinement direction of C7):
the largest unit among {none, k, M, G, T, P} whose decimal `10^3`-step
threshold the value meets. -/
def specUnit (val : ℤ) : ℕ :=
  ((List.range 6).filter (fun k => (10 : ℤ) ^ (3 * k) ≤ val)).foldr max 0

/-- Suffix attached to each unit step. -/
def unitSuffix : ℕ → String
  | 1 => "k"
  | 2 => "M"
  | 3 => "G"
  | 4 => "T"
  | 5 => "P"
  | _ => ""


/-! ## Quota records and `print_quota` (claims C3, C8) -/

/-- A grace slot value: `run_quota` stores an int (`int(ls[4])`),
`nfs_lustre_quota` may store the raw token string. -/
abbrev GraceV := ℤ ⊕ String

/-- One `(usage, quota, limit, grace)` tuple of `print_quota`'s input. -/
structure QFig where
  usage : ℤ
  quota : ℤ
  limit : ℤ
  grace : GraceV
deriving DecidableEq, Repr

/-- One `(ug, ugname, qd)` element of the `quota` list: `'user'`/`'group'`
marker, principal name, and the mountpoint-keyed dict in insertion order. -/
structure QBlock where
  kind : String
  name : String
  entries : List (String × QFig)
deriving DecidableEq, Repr

/-- One line printed by `print_quota`.  `pcent` carries the pair
`(usage, quota)` whose exact quotient times 100 is the float the code
prints with `%5.0f`; `none` is the ZeroDivisionError branch
(`pcent = float('Inf')`). -/
structure PRow where
  ugstr : String
  mp : String
  use : String
  pcent : Option (ℤ × ℤ)
  q : String
  hq : String
  grace : String
deriving DecidableEq, Repr

/-- The grace-rendering block of `print_quota` (lines 222–232; the spec's
`graceToHuman`).  `epochDate` abstracts `date.fromtimestamp` (epoch
seconds to the local calendar date, encoded as a day number) and `today`
abstracts `date.today()`; the difference of two Python dates is an exact
whole number of days (`td.days`). -/
def grace_to_human (epochDate : ℤ → ℤ) (today : ℤ) : GraceV → String
  | Sum.inl n => if n ≠ 0 then toString (epochDate n - today) ++ "days" else ""
  | Sum.inr s =>
    match pyInt s with
    | some gr => if gr ≠ 0 then toString (epochDate gr - today) ++ "days" else ""
    | none => s

/-- `fancyquota.print_quota`.  The `quotas` list the source computes at
lines 208–210 is never used and is omitted; the `%`-formatting of the
final `print` is the `PRow` record. -/
def print_quota (epochDate : ℤ → ℤ) (today : ℤ) (qs : List QBlock) : List PRow :=
  qs.flatMap (fun b =>
    let ugstr := pyStrip ((if b.kind = "user" then "u:" else "g:") ++ b.name)
    b.entries.map (fun e =>
      { ugstr := ugstr
        mp := e.1
        use := size_to_human e.2.usage
        pcent := if e.2.quota = (0 : ℤ) then none else some (e.2.usage, e.2.quota)
        q := size_to_human e.2.quota
        hq := size_to_human e.2.limit
        grace := grace_to_human epochDate today e.2.grace }))

/-- One `(ugname, {mountpoint: (usage, quota)})` element of
`fysquota.print_quota`'s input.  The numeric string tokens are modelled
already parsed (`float(use.replace('*', ' '))` and `int(vals[1])`
succeed on quota-command output). -/
structure FBlock where
  name : String
  entries : List (String × ℤ × ℤ)
deriving DecidableEq, Repr

/-- `fysquota.print_quota`: a block is skipped entirely when it has no
entries or any quota below 2 (`True in [x < 2 for x in quotas]`);
otherwise one row per entry (name, mountpoint, usage, quota — the
GB scaling and percent of the `print` are carried as the raw pair). -/
def fys_print_quota (qs : List FBlock) : List (String × String × ℤ × ℤ) :=
  qs.flatMap (fun b =>
    if b.entries = [] ∨ b.entries.any (fun e => e.2.2 < 2) then []
    else b.entries.map (fun e => (b.name, e.1, e.2.1, e.2.2)))

/-! ## The quota-output parsing loop of `run_quota` (claims C4, C6, C10) -/

/-- Python dict assignment `d[k] = v` on an insertion-ordered assoc list:
overwrite in place, else append. -/
def dictSet {α : Type} (l : List (String × α)) (k : String) (v : α) : List (String × α) :=
  if l.any (fun p => p.1 = k) then
    l.map (fun p => if p.1 = k then (k, v) else p)
  else l ++ [(k, v)]

/-- The `for line in p.readlines()` loop of `run_quota`: a line containing
`"Disk quotas for"` opens a block; a line containing the column-header
text is skipped; any other line is a data row whose fields `ls[0..4]` are
consumed (`ls[1]` stripped of `*`, block counts scaled by `bs = 1024`,
`ls[4]` parsed as the grace int) and stored into the current block under
the resolved mountpoint.  `none` models the uncaught exceptions:
IndexError (missing token), ValueError (`int` failure), KeyError
(`map_fs`), NameError (row before any header). -/
def parse_quota_lines (logname : String) (mp : MountMap) :
    List String → List QBlock → Option (List QBlock)
  | [], acc => some acc
  | line :: rest, acc =>
    if pyContains line "Disk quotas for" then
      let eind := pyFind line " ("
      let ls := (pySplit (pySliceTo line eind)).drop 3
      match ls with
      | [] => none
      | ug :: names =>
        parse_quota_lines logname mp rest
          (acc ++ [{ kind := ug, name := String.intercalate " " names, entries := [] }])
    else if pyContains line "     Filesystem  blocks   quota   limit" then
      parse_quota_lines logname mp rest acc
    else
      let ls := pySplit line
      match ls.get? 0, ls.get? 1, ls.get? 2, ls.get? 3, ls.get? 4 with
      | some f0, some f1, some f2, some f3, some f4 =>
        match pyInt (stripStar f1), pyInt f2, pyInt f3, pyInt f4, map_fs f0 mp logname,
            acc.getLast? with
        | some b, some q, some l, some g, some ment, some lastB =>
          let fig : QFig := ⟨b * 1024, q * 1024, l * 1024, Sum.inl g⟩
          parse_quota_lines logname mp rest
            (acc.dropLast ++ [{ lastB with entries := dictSet lastB.entries ment.1 fig }])
        | _, _, _, _, _, _ => none
      | _, _, _, _, _ => none

/-- Every mountpoint key of every block — the `done_mp` set of `run_quota`. -/
def allKeys (qs : List QBlock) : List String :=
  qs.flatMap (fun b => b.entries.map Prod.fst)

/-- `fancyquota.run_quota` after the subprocess call: parse `lines` (the
`quota -ugwp` standard output), build `done_mp` from every parsed
mountpoint, then drop whole blocks for filtered groups (non-root users
only), then drop entries whose mountpoint the user cannot read
(`os.access(e, R_OK)` = `access`), and print the remainder.  `none`
models an exception escaping and aborting the program. -/
def run_quota (logname : String) (mp : MountMap) (lines : List String)
    (fgroups : List String) (myuid : ℕ) (access : String → Bool)
    (epochDate : ℤ → ℤ) (today : ℤ) : Option (List PRow × List String) :=
  match parse_quota_lines logname mp lines [] with
  | none => none
  | some myquota =>
    let done_mp := allKeys myquota
    let kept := myquota.filter
      (fun q => ¬ (myuid ≠ 0 ∧ q.kind = "group" ∧ q.name ∈ fgroups))
    let kept2 := kept.map (fun q => { q with entries := q.entries.filter (fun e => access e.1) })
    some (print_quota epochDate today kept2, done_mp)

/-! ## `nfs_lustre_quota` — the remote gateway source (claims C5, C6, C10) -/

/-- Does the fstype start with `nfs` (`fss[fs][1][:3] == 'nfs'`)? -/
def isNfs (fstype : String) : Bool :=
  fstype.toList.take 3 = ['n', 'f', 's']

/-- Environment of `nfs_lustre_quota`: `os.stat(mp).st_gid` (`none` =
OSError, which the code catches), the gateway response body for a gid
(`none` = urlopen failure — timeout, non-200 — which the code does NOT
catch; `some` = any successfully read body, which in Python 3 is a
`bytes` value), `grp.getgrgid(gid).gr_name`, and `os.getgroups()`. -/
structure LustreEnv where
  statGid : String → Option ℕ
  gateway : ℕ → Option String
  groupName : ℕ → String
  mygids : List ℕ

/-- Inner `for ld in lquota['dirs']` loop of `nfs_lustre_quota` for one
mount entry with resolved mountpoint `mpname` and fstype `fstype`,
threading `done_mp` and the accumulated `myquota`.  `.error` carries the
state of `done_mp` at the moment the uncaught exception escaped (the
Python caller never sees it — the function just dies). -/
def lustre_inner (env : LustreEnv) (fgids : List ℕ) (fstype mpname : String) :
    List String → List String → List QBlock →
      Except (List String) (List String × List QBlock)
  | [], done, acc => .ok (done, acc)
  | ld :: lds, done, acc =>
    if isNfs fstype ∧ pyContains mpname ld then
      let done' := done ++ [mpname]
      match env.statGid mpname with
      | none => lustre_inner env fgids fstype mpname lds done' acc
      | some gid =>
        if gid ∈ env.mygids ∧ gid ∉ fgids then
          match env.gateway gid with
          | none => .error done'
          | some _ =>
            -- A successfully read body is `bytes` in Python 3, so
            -- `lls = lquotares.split()` yields bytes tokens: `lls[4] == '-'`
            -- is a bytes-vs-str comparison (always False, so the `grace = 0`
            -- branch is dead), and `int(lls[1].replace('*', ''))` calls
            -- `bytes.replace` with `str` arguments, which raises TypeError
            -- unconditionally (a body with fewer than five tokens dies a line
            -- earlier with IndexError).  Every successful response therefore
            -- kills the function before `myquota.append` is reached.
            .error done'
        else lustre_inner env fgids fstype mpname lds done' acc
    else lustre_inner env fgids fstype mpname lds done acc

/-- Outer `for fs in fss` loop of `nfs_lustre_quota`. -/
def lustre_outer (logname : String) (fss : MountMap) (env : LustreEnv) (fgids : List ℕ)
    (ldirs : List String) :
    List (String × String × String) → List String → List QBlock →
      Except (List String) (List String × List QBlock)
  | [], done, acc => .ok (done, acc)
  | (fs, _) :: rest, done, acc =>
    match map_fs fs fss logname, mget fss fs with
    | some ment, some ent =>
      match lustre_inner env fgids ent.2 ment.1 ldirs done acc with
      | .error d => .error d
      | .ok (done', acc') => lustre_outer logname fss env fgids ldirs rest done' acc'
    | _, _ => .error done

/-- `fancyquota.nfs_lustre_quota`: compute the filtered gids (`grp.getgrnam`
KeyError skips a name), run the loops, and print the collected group
blocks.  `.ok` yields the printed rows and the returned `done_mp`. -/
def nfs_lustre_quota (logname : String) (fss : MountMap) (env : LustreEnv)
    (fgroups : List String) (grpGid : String → Option ℕ) (ldirs : List String)
    (epochDate : ℤ → ℤ) (today : ℤ) :
    Except (List String) (List PRow × List String) :=
  let fgids := fgroups.filterMap grpGid
  match lustre_outer logname fss env fgids ldirs fss [] [] with
  | .error d => .error d
  | .ok (done, myquota) => .ok (print_quota epochDate today myquota, done)

/-! ## `nfs_proj_quota` — the raw-capacity fallback (claims C5, C6, C10) -/

/-- `os.statvfs` result fields used by the code. -/
structure VStat where
  f_blocks : ℤ
  f_bfree : ℤ
  f_bavail : ℤ
  f_frsize : ℤ
deriving DecidableEq, Repr

/-- One line printed by `nfs_proj_quota`.  `usedpct` is the exact integer
that `%5d` prints: `used*100/nonroot_tot` rounded up to the next integer
when not exact (the code adds the indicator `u100 % nonroot_tot != 0` to
the float quotient, and `%d` truncates). -/
structure JRow where
  mp : String
  used : String
  usedpct : ℤ
  tot : String
deriving DecidableEq, Repr

/-- `fancyquota.nfs_proj_quota`: for every mount entry whose fstype starts
with `nfs` and whose resolved mountpoint is not yet in `done_mp`, if the
mountpoint is readable, print a capacity row from `os.statvfs` (= `svfs`).
The Bool is `false` when an uncaught exception (ZeroDivisionError for
`used + f_bavail = 0`, KeyError from `map_fs`) escaped, truncating the
printed output at that point. -/
def proj_loop (logname : String) (mps : MountMap) (done : List String)
    (access : String → Bool) (svfs : String → VStat) :
    List (String × String × String) → List JRow × Bool
  | [] => ([], true)
  | (fs, _) :: rest =>
    match map_fs fs mps logname, mget mps fs with
    | some ment, some ent =>
      if isNfs ent.2 ∧ ment.1 ∉ done then
        if access ment.1 then
          let st := svfs ment.1
          let used := st.f_blocks - st.f_bfree
          let nonroot_tot := used + st.f_bavail
          if nonroot_tot = 0 then ([], false)
          else
            let u100 := used * 100
            let row : JRow :=
              ⟨ment.1, size_to_human (used * st.f_frsize),
               u100.ediv nonroot_tot + (if u100.emod nonroot_tot ≠ 0 then 1 else 0),
               size_to_human (nonroot_tot * st.f_frsize)⟩
            let r := proj_loop logname mps done access svfs rest
            (row :: r.1, r.2)
        else proj_loop logname mps done access svfs rest
      else proj_loop logname mps done access svfs rest
    | _, _ => ([], false)

/-! ## The composed run — `quota_main` after config and mount reading -/

/-- Trace of one run: primary rows and done set, gateway rows and done
set, fallback rows (with the fallback's clean-completion flag). -/
structure RunOut where
  prows : List PRow
  done1 : List String
  lrows : List PRow
  done2 : List String
  jrows : List JRow
  jok : Bool
deriving DecidableEq, Repr

/-- The `quota_main` sequencing from `run_quota` on: the primary source,
then the gateway source, then the fallback over `done_mp ∪ done_mp2`.
`none` models the program dying on an uncaught exception before the
fallback stage. -/
def fancy_main (logname : String) (fss : MountMap) (lines : List String)
    (fgroups : List String) (myuid : ℕ) (access : String → Bool)
    (epochDate : ℤ → ℤ) (today : ℤ) (env : LustreEnv) (grpGid : String → Option ℕ)
    (ldirs : List String) (svfs : String → VStat) : Option RunOut :=
  match run_quota logname fss lines fgroups myuid access epochDate today with
  | none => none
  | some pr =>
    match nfs_lustre_quota logname fss env fgroups grpGid ldirs epochDate today with
    | .error _ => none
    | .ok lr =>
      let done := pr.2 ++ lr.2
      let j := proj_loop logname fss done access svfs fss
      some ⟨pr.1, pr.2, lr.1, lr.2, j.1, j.2⟩

/-- Mountpoints of a list of primary/gateway rows. -/
def prowMps (rows : List PRow) : List String :=
  rows.map PRow.mp

/-- Mountpoints of a list of fallback rows. -/
def jrowMps (rows : List JRow) : List String :=
  rows.map JRow.mp

/-! ## Mount Resolver theorems (claims C1, C2, C9) -/

/-- When no chop length in the loop's range matches any key, the chopping
loop yields nothing. -/
theorem fys_chop_loop_eq_none (fs : String) (mp : FysMountMap) (total : ℕ)
    (h : ∀ ii ∈ List.range' 1 total,
      mp.find? (fun kv => fys_chop kv.1 ii = fys_chop fs ii) = none) :
    ∀ n, n ≤ total → fys_chop_loop fs mp total n = none := by
  intro n
  induction n with
  | zero => intro _; rfl
  | succ n ih =>
    intro hn
    have hmem : total - n ∈ List.range' 1 total := by
      simp only [List.mem_range'_1]
      omega
    simp only [fys_chop_loop, h _ hmem, Option.map_none', ih (by omega)]

/-- C1 (counterexample): `/a/b` is the device of the entry with mountpoint
`/mnt/b`, yet `map_fs` does not return that entry: the
parent-plus-username candidate `/a/alice` is tried first and wins. -/
theorem c1_counterexample :
    mget [("/a/b", ("/mnt/b", "ext4")), ("/a/alice", ("/mnt/alice", "ext4"))] "/a/b"
      = some ("/mnt/b", "ext4") ∧
    map_fs "/a/b" [("/a/b", ("/mnt/b", "ext4")), ("/a/alice", ("/mnt/alice", "ext4"))] "alice"
      ≠ some ("/mnt/b", "ext4") := by
  decide

/-- C1 (amended): the substitution candidate is tried first; exact-device
lookup applies only when the parent-directory-plus-username candidate is
not itself a device of the table.  Under that proviso, resolving a raw
identifier that is the device of some entry returns that entry. -/
theorem c1_exact_lookup_after_substitution (T : MountMap) (d u : String) (e : String × String)
    (hsub : mget T (joinPath (dirname d) u) = none)
    (hdev : mget T d = some e) :
    map_fs d T u = some e := by
  simp only [map_fs, hsub, hdev]

/-- C1 (witness): a concrete table where the proviso holds. -/
theorem c1_witness :
    mget [("/dev/sda1", ("/home", "ext4"))] (joinPath (dirname "/dev/sda1") "alice") = none ∧
    mget [("/dev/sda1", ("/home", "ext4"))] "/dev/sda1" = some ("/home", "ext4") ∧
    map_fs "/dev/sda1" [("/dev/sda1", ("/home", "ext4"))] "alice" = some ("/home", "ext4") :=
  ⟨by decide, by decide,
    c1_exact_lookup_after_substitution _ _ _ _ (by decide) (by decide)⟩

/-- C2 (counterexample): `fancyquota.map_fs` is not total — when neither the
raw identifier nor its parent-plus-username candidate is a device of the
table, the final `mp[fs]` raises `KeyError` (here: `none`) instead of
returning the raw identifier unchanged. -/
theorem c2_counterexample :
    map_fs "/x" ([] : MountMap) "alice" = none := by
  decide

/-- C2 (amended): only `fysquota.map_fs` is total with the raw-identifier
fallback; `fancyquota.map_fs` raises `KeyError` when neither the raw
identifier nor the substitution candidate matches a device. -/
theorem c2_totality_split :
    (∀ (fs : String) (mp : MountMap) (u : String),
      mget mp (joinPath (dirname fs) u) = none → mget mp fs = none →
        map_fs fs mp u = none) ∧
    (∀ (fs : String) (mp : FysMountMap),
      mp.lookup fs = none →
      (∀ ii ∈ List.range' 1 ((splitSlash fs).length - 1),
        mp.find? (fun kv => fys_chop kv.1 ii = fys_chop fs ii) = none) →
        fys_map_fs fs mp = fs) := by
  constructor
  · intro fs mp u hsub hdev
    simp only [map_fs, hsub, hdev]
  · intro fs mp hlk hchop
    simp only [fys_map_fs, hlk, fys_chop_loop_eq_none fs mp _ hchop _ le_rfl]

/-- C2 (witness): the fancyquota branch at an empty table, and the fysquota
branch returning the raw identifier unchanged. -/
theorem c2_witness :
    map_fs "/x" ([] : MountMap) "alice" = none ∧
    fys_map_fs "x" [("/c/d", "HOME")] = "x" :=
  ⟨(c2_totality_split).1 "/x" [] "alice" (by decide) (by decide),
   (c2_totality_split).2 "x" [("/c/d", "HOME")] (by decide) (by decide)⟩

/-- `specUnit` evaluates branchwise: band `[10^15, ∞)`. -/
theorem specUnit_band5 (val : ℤ) (h : (10:ℤ)^15 ≤ val) : specUnit val = 5 := by
  have e0 : (10:ℤ)^(3*0) ≤ val := le_trans (by norm_num) h
  have e1 : (10:ℤ)^(3*1) ≤ val := le_trans (by norm_num) h
  have e2 : (10:ℤ)^(3*2) ≤ val := le_trans (by norm_num) h
  have e3 : (10:ℤ)^(3*3) ≤ val := le_trans (by norm_num) h
  have e4 : (10:ℤ)^(3*4) ≤ val := le_trans (by norm_num) h
  have e5 : (10:ℤ)^(3*5) ≤ val := le_trans (by norm_num) h
  rw [specUnit, show List.range 6 = [0,1,2,3,4,5] from rfl]
  simp only [List.filter_cons, List.filter_nil, decide_eq_true_eq, e0, e1, e2, e3, e4, e5,
    if_true, List.foldr_cons, List.foldr_nil]
  rfl

/-- `specUnit` evaluates branchwise: band `[10^12, 10^15)`. -/
theorem specUnit_band4 (val : ℤ) (h : (10:ℤ)^12 ≤ val) (h2 : ¬ ((10:ℤ)^15 ≤ val)) :
    specUnit val = 4 := by
  have e0 : (10:ℤ)^(3*0) ≤ val := le_trans (by norm_num) h
  have e1 : (10:ℤ)^(3*1) ≤ val := le_trans (by norm_num) h
  have e2 : (10:ℤ)^(3*2) ≤ val := le_trans (by norm_num) h
  have e3 : (10:ℤ)^(3*3) ≤ val := le_trans (by norm_num) h
  have e4 : (10:ℤ)^(3*4) ≤ val := le_trans (by norm_num) h
  have e5 : ¬ ((10:ℤ)^(3*5) ≤ val) := by intro hc; exact h2 (by norm_num at hc ⊢; omega)
  rw [specUnit, show List.range 6 = [0,1,2,3,4,5] from rfl]
  simp only [List.filter_cons, List.filter_nil, decide_eq_true_eq, e0, e1, e2, e3, e4, e5,
    if_true, if_false, List.foldr_cons, List.foldr_nil]
  rfl

/-- `specUnit` evaluates branchwise: band `[10^9, 10^12)`. -/
theorem specUnit_band3 (val : ℤ) (h : (10:ℤ)^9 ≤ val) (h2 : ¬ ((10:ℤ)^12 ≤ val)) :
    specUnit val = 3 := by
  have e0 : (10:ℤ)^(3*0) ≤ val := le_trans (by norm_num) h
  have e1 : (10:ℤ)^(3*1) ≤ val := le_trans (by norm_num) h
  have e2 : (10:ℤ)^(3*2) ≤ val := le_trans (by norm_num) h
  have e3 : (10:ℤ)^(3*3) ≤ val := le_trans (by norm_num) h
  have e4 : ¬ ((10:ℤ)^(3*4) ≤ val) := by intro hc; exact h2 (by norm_num at hc ⊢; omega)
  have e5 : ¬ ((10:ℤ)^(3*5) ≤ val) := by intro hc; exact h2 (by norm_num at hc ⊢; omega)
  rw [specUnit, show List.range 6 = [0,1,2,3,4,5] from rfl]
  simp only [List.filter_cons, List.filter_nil, decide_eq_true_eq, e0, e1, e2, e3, e4, e5,
    if_true, if_false, List.foldr_cons, List.foldr_nil]
  rfl

/-- `specUnit` evaluates branchwise: band `[10^6, 10^9)`. -/
theorem specUnit_band2 (val : ℤ) (h : (10:ℤ)^6 ≤ val) (h2 : ¬ ((10:ℤ)^9 ≤ val)) :
    specUnit val = 2 := by
  have e0 : (10:ℤ)^(3*0) ≤ val := le_trans (by norm_num) h
  have e1 : (10:ℤ)^(3*1) ≤ val := le_trans (by norm_num) h
  have e2 : (10:ℤ)^(3*2) ≤ val := le_trans (by norm_num) h
  have e3 : ¬ ((10:ℤ)^(3*3) ≤ val) := by intro hc; exact h2 (by norm_num at hc ⊢; omega)
  have e4 : ¬ ((10:ℤ)^(3*4) ≤ val) := by intro hc; exact h2 (by norm_num at hc ⊢; omega)
  have e5 : ¬ ((10:ℤ)^(3*5) ≤ val) := by intro hc; exact h2 (by norm_num at hc ⊢; omega)
  rw [specUnit, show List.range 6 = [0,1,2,3,4,5] from rfl]
  simp only [List.filter_cons, List.filter_nil, decide_eq_true_eq, e0, e1, e2, e3, e4, e5,
    if_true, if_false, List.foldr_cons, List.foldr_nil]
  rfl

/-- `specUnit` evaluates branchwise: band `[10^3, 10^6)`. -/
theorem specUnit_band1 (val : ℤ) (h : (10:ℤ)^3 ≤ val) (h2 : ¬ ((10:ℤ)^6 ≤ val)) :
    specUnit val = 1 := by
  have e0 : (10:ℤ)^(3*0) ≤ val := le_trans (by norm_num) h
  have e1 : (10:ℤ)^(3*1) ≤ val := le_trans (by norm_num) h
  have e2 : ¬ ((10:ℤ)^(3*2) ≤ val) := by intro hc; exact h2 (by norm_num at hc ⊢; omega)
  have e3 : ¬ ((10:ℤ)^(3*3) ≤ val) := by intro hc; exact h2 (by norm_num at hc ⊢; omega)
  have e4 : ¬ ((10:ℤ)^(3*4) ≤ val) := by intro hc; exact h2 (by norm_num at hc ⊢; omega)
  have e5 : ¬ ((10:ℤ)^(3*5) ≤ val) := by intro hc; exact h2 (by norm_num at hc ⊢; omega)
  rw [specUnit, show List.range 6 = [0,1,2,3,4,5] from rfl]
  simp only [List.filter_cons, List.filter_nil, decide_eq_true_eq, e0, e1, e2, e3, e4, e5,
    if_true, if_false, List.foldr_cons, List.foldr_nil]
  rfl

/-- `specUnit` evaluates branchwise: band `(-∞, 10^3)`. -/
theorem specUnit_band0 (val : ℤ) (h2 : ¬ ((10:ℤ)^3 ≤ val)) : specUnit val = 0 := by
  have e1 : ¬ ((10:ℤ)^(3*1) ≤ val) := by intro hc; exact h2 (by norm_num at hc ⊢; omega)
  have e2 : ¬ ((10:ℤ)^(3*2) ≤ val) := by intro hc; exact h2 (by norm_num at hc ⊢; omega)
  have e3 : ¬ ((10:ℤ)^(3*3) ≤ val) := by intro hc; exact h2 (by norm_num at hc ⊢; omega)
  have e4 : ¬ ((10:ℤ)^(3*4) ≤ val) := by intro hc; exact h2 (by norm_num at hc ⊢; omega)
  have e5 : ¬ ((10:ℤ)^(3*5) ≤ val) := by intro hc; exact h2 (by norm_num at hc ⊢; omega)
  rw [specUnit, show List.range 6 = [0,1,2,3,4,5] from rfl]
  simp only [List.filter_cons, List.filter_nil, decide_eq_true_eq, e1, e2, e3, e4, e5,
    if_false, List.foldr_cons, List.foldr_nil]
  by_cases e0 : (1:ℤ) ≤ val <;> simp [e0]

/-- C7 (counterexample): `size_to_human 999` is not the claimed bare string
`"999.0"` — the `'%6.1f'` width pads it to `" 999.0"`. -/
theorem c7_counterexample :
    size_to_human 999 ≠ "999.0" ∧ size_to_human 999 = " 999.0" := by
  decide

/-- C7 (amended): for every non-negative byte count, `size_to_human` scales
by the largest decimal `10^3`-step unit among {none, k, M, G, T, P} whose
threshold the value meets and renders the `%6.1f`-formatted (width-6
right-justified) magnitude followed by the unit suffix; the claim's test
values render as `" 999.0"`, `"   1.5k"` and `"   1.0G"` (padded). -/
theorem c7_scaling :
    (∀ val : ℕ, size_to_human (val : ℤ) =
      pad6 (fmtFixed1 (val : ℤ) ((10:ℤ) ^ (3 * specUnit (val : ℤ)))) ++
        unitSuffix (specUnit (val : ℤ))) ∧
    size_to_human 999 = " 999.0" ∧
    size_to_human 1500 = "   1.5k" ∧
    size_to_human ((10:ℤ)^9) = "   1.0G" := by
  refine ⟨?_, by decide, by decide, by decide⟩
  intro val
  by_cases h15 : (val : ℤ) ≥ 10^15
  · rw [size_to_human, if_pos h15, specUnit_band5 _ h15]
    norm_num [unitSuffix]
  · by_cases h12 : (val : ℤ) ≥ 10^12
    · rw [size_to_human, if_neg h15, if_pos h12, specUnit_band4 _ h12 h15]
      norm_num [unitSuffix]
    · by_cases h9 : (val : ℤ) ≥ 10^9
      · rw [size_to_human, if_neg h15, if_neg h12, if_pos h9, specUnit_band3 _ h9 h12]
        norm_num [unitSuffix]
      · by_cases h6 : (val : ℤ) ≥ 10^6
        · rw [size_to_human, if_neg h15, if_neg h12, if_neg h9, if_pos h6,
            specUnit_band2 _ h6 h9]
          norm_num [unitSuffix]
        · by_cases h3 : (val : ℤ) ≥ 10^3
          · rw [size_to_human, if_neg h15, if_neg h12, if_neg h9, if_neg h6, if_pos h3,
              specUnit_band1 _ h3 h6]
            norm_num [unitSuffix]
          · rw [size_to_human, if_neg h15, if_neg h12, if_neg h9, if_neg h6, if_neg h3,
              specUnit_band0 _ h3]
            simp [unitSuffix]

/-! ## Suppression and grace theorems (claims C3, C4, C8) -/

/-- C3 (counterexample): an entry whose soft limit is 0 is **not**
suppressed by `fancyquota.print_quota`: it renders a full row (with the
`+Infinity` percent of the ZeroDivisionError branch). -/
theorem c3_counterexample :
    print_quota (fun n => n) 0
      [{ kind := "user", name := "alice", entries := [("/home", ⟨0, 0, 0, Sum.inl 0⟩)] }]
      = [{ ugstr := "u:alice", mp := "/home", use := "   0.0", pcent := none,
           q := "   0.0", hq := "   0.0", grace := "" }] := by
  decide

/-- C3 (amended): `fancyquota.print_quota` performs no suppression at all —
it prints exactly one row per entry of every block, whatever the soft
limits (the `quotas` list it computes is never used).  Only the legacy
`fysquota.print_quota` suppresses, and it does so at block granularity:
a block with no entries or with any soft limit below 2 contributes no
rows at all (including its healthy entries). -/
theorem c3_no_suppression :
    (∀ (epochDate : ℤ → ℤ) (today : ℤ) (qs : List QBlock),
      (print_quota epochDate today qs).length =
        (qs.map (fun b => b.entries.length)).sum) ∧
    (∀ (b : FBlock) (bs : List FBlock),
      (b.entries = [] ∨ b.entries.any (fun e => e.2.2 < 2)) →
        fys_print_quota (b :: bs) = fys_print_quota bs) := by
  constructor
  · intro epochDate today qs
    induction qs with
    | nil => rfl
    | cons b bs ih =>
      simp only [print_quota, List.flatMap_cons, List.length_append, List.length_map,
        List.map_cons, List.sum_cons] at *
      omega
  · intro b bs h
    simp only [fys_print_quota, List.flatMap_cons, if_pos h, List.nil_append]

/-- C3 (witness): a block whose single entry has soft limit 0 is dropped
whole by `fysquota`, and the fancyquota row count equals the entry count
at the counterexample block. -/
theorem c3_witness :
    fys_print_quota [⟨"user alice", [("/m", 10, 0)]⟩] = fys_print_quota [] ∧
    (print_quota (fun n => n) 0
      [{ kind := "user", name := "alice", entries := [("/home", ⟨0, 0, 0, Sum.inl 0⟩)] }]).length
      = 1 := by
  constructor
  · exact c3_no_suppression.2 ⟨"user alice", [("/m", 10, 0)]⟩ [] (Or.inr (by decide))
  · have h := c3_no_suppression.1 (fun n => n) 0
      [{ kind := "user", name := "alice", entries := [("/home", ⟨0, 0, 0, Sum.inl 0⟩)] }]
    simpa using h

/-- C4 (counterexample): a data row that is not over any limit and hence
carries no grace token — the realistic 7-token form
`fs blocks quota limit files fquota flimit` — parses with the **files
count** (here 12345) as its grace value, not with empty grace; and the
minimal 4-token form makes the parser raise IndexError (`none`) instead
of defaulting. -/
theorem c4_counterexample :
    parse_quota_lines "alice" [("/dev/sda1", ("/home", "ext4"))]
      ["Disk quotas for user alice (uid 1000): ",
       "      /dev/sda1    1024    2048    4096           12345       0       0        "] []
      = some [{ kind := "user", name := "alice",
                entries := [("/home", ⟨1048576, 2097152, 4194304, Sum.inl 12345⟩)] }] ∧
    (Sum.inl (12345 : ℤ) : GraceV) ≠ Sum.inl 0 ∧
    parse_quota_lines "alice" [("/dev/sda1", ("/home", "ext4"))]
      ["Disk quotas for user alice (uid 1000): ",
       "/dev/sda1 1024 2048 4096"] [] = none := by
  decide

/-- C4 (amended): on a row line after a valid header the parser always
consumes `ls[4]` as the grace field: a line splitting into exactly four
tokens raises IndexError (`none`), and a line with five or more tokens
stores `int(ls[4])` — for a not-over-quota row that token is the
file-count column, not an empty grace. -/
theorem c4_grace_is_fifth_token (logname : String) (mp : MountMap) (line : String)
    (rest : List String) (acc : List QBlock)
    (hh : pyContains line "Disk quotas for" = false)
    (hc : pyContains line "     Filesystem  blocks   quota   limit" = false) :
    ((∃ f0 f1 f2 f3, pySplit line = [f0, f1, f2, f3]) →
      parse_quota_lines logname mp (line :: rest) acc = none) ∧
    (∀ f0 f1 f2 f3 f4 more b q l g ment lastB,
      pySplit line = f0 :: f1 :: f2 :: f3 :: f4 :: more →
      pyInt (stripStar f1) = some b → pyInt f2 = some q → pyInt f3 = some l →
      pyInt f4 = some g → map_fs f0 mp logname = some ment →
      acc.getLast? = some lastB →
      parse_quota_lines logname mp (line :: rest) acc =
        parse_quota_lines logname mp rest
          (acc.dropLast ++ [{ lastB with
            entries := dictSet lastB.entries ment.1
              ⟨b * 1024, q * 1024, l * 1024, Sum.inl g⟩ }])) := by
  constructor
  · rintro ⟨f0, f1, f2, f3, hsplit⟩
    simp only [parse_quota_lines, hh, hc, Bool.false_eq_true, if_false, hsplit,
      List.get?]
  · intro f0 f1 f2 f3 f4 more b q l g ment lastB hsplit hb hq hl hg hmap hlast
    simp only [parse_quota_lines, hh, hc, Bool.false_eq_true, if_false, hsplit,
      List.get?, hb, hq, hl, hg, hmap, hlast]

/-- C4 (witness): the amended row-step behavior at the counterexample's
concrete lines. -/
theorem c4_witness :
    parse_quota_lines "alice" [("/dev/sda1", ("/home", "ext4"))]
      ["/dev/sda1 1024 2048 4096"]
      [{ kind := "user", name := "alice", entries := [] }] = none ∧
    parse_quota_lines "alice" [("/dev/sda1", ("/home", "ext4"))]
      ["      /dev/sda1    1024    2048    4096           12345       0       0        "]
      [{ kind := "user", name := "alice", entries := [] }] =
      parse_quota_lines "alice" [("/dev/sda1", ("/home", "ext4"))] []
        [{ kind := "user", name := "alice",
           entries := dictSet [] "/home" ⟨1024 * 1024, 2048 * 1024, 4096 * 1024, Sum.inl 12345⟩ }] := by
  constructor
  · exact (c4_grace_is_fifth_token "alice" [("/dev/sda1", ("/home", "ext4"))]
      "/dev/sda1 1024 2048 4096" []
      [{ kind := "user", name := "alice", entries := [] }] (by decide) (by decide)).1
      ⟨"/dev/sda1", "1024", "2048", "4096", by decide⟩
  · exact (c4_grace_is_fifth_token "alice" [("/dev/sda1", ("/home", "ext4"))]
      "      /dev/sda1    1024    2048    4096           12345       0       0        " []
      [{ kind := "user", name := "alice", entries := [] }] (by decide) (by decide)).2
      "/dev/sda1" "1024" "2048" "4096" "12345" ["0", "0"] 1024 2048 4096 12345
      ("/home", "ext4") { kind := "user", name := "alice", entries := [] }
      (by decide) (by decide) (by decide) (by decide) (by decide) (by decide) (by decide)

/-- C8: the grace-rendering of `print_quota` — a non-zero numeric grace
renders as `"<days>days"` with `days = ⌈epochDate(g) − today⌉` (dates are
whole day numbers, so the ceiling is exact); a numeric zero renders
empty; a non-numeric textual descriptor passes through unchanged. -/
theorem c8_grace_rendering (epochDate : ℤ → ℤ) (today : ℤ) :
    (∀ n : ℤ, n ≠ 0 →
      grace_to_human epochDate today (Sum.inl n) =
        toString (⌈((epochDate n - today : ℤ) : ℚ)⌉) ++ "days") ∧
    grace_to_human epochDate today (Sum.inl 0) = "" ∧
    (∀ s : String, ∀ g : ℤ, pyInt s = some g → g ≠ 0 →
      grace_to_human epochDate today (Sum.inr s) =
        toString (⌈((epochDate g - today : ℤ) : ℚ)⌉) ++ "days") ∧
    (∀ s : String, pyInt s = some 0 → grace_to_human epochDate today (Sum.inr s) = "") ∧
    (∀ s : String, pyInt s = none → grace_to_human epochDate today (Sum.inr s) = s) := by
  refine ⟨?_, by simp [grace_to_human], ?_, ?_, ?_⟩
  · intro n hn
    simp [grace_to_human, hn, Int.ceil_intCast]
  · intro s g hs hg
    simp [grace_to_human, hs, hg, Int.ceil_intCast]
  · intro s hs
    simp [grace_to_human, hs]
  · intro s hs
    simp [grace_to_human, hs]

/-- C8 (witness): concrete renderings in all three regimes (an epoch five
date-days ahead, the zero grace, a textual token). -/
theorem c8_witness :
    grace_to_human (fun n => n) 0 (Sum.inl 5) = "5days" ∧
    grace_to_human (fun n => n) 0 (Sum.inl 0) = "" ∧
    grace_to_human (fun n => n) 0 (Sum.inr "6days") = "6days" := by
  refine ⟨?_, (c8_grace_rendering (fun n => n) 0).2.1, ?_⟩
  · have h := (c8_grace_rendering (fun n => n) 0).1 5 (by decide)
    rw [h]
    norm_num
    decide
  · exact (c8_grace_rendering (fun n => n) 0).2.2.2.2 "6days" (by decide)

/-- C9 (counterexample): `map_fs` is not idempotent.  Resolving the device
`/dev/sda1` yields the mountpoint `/home`, but resolving `/home` through
the same table raises `KeyError` (`none`) — mountpoints are not device
keys. -/
theorem c9_counterexample :
    map_fs "/dev/sda1" [("/dev/sda1", ("/home", "ext4"))] "alice"
      = some ("/home", "ext4") ∧
    map_fs "/home" [("/dev/sda1", ("/home", "ext4"))] "alice" = none := by
  decide

/-- C9 (amended): instead of idempotence, resolving a mountpoint `m`
obtained from a previous resolution raises `KeyError` whenever neither
`m` nor its parent-plus-username candidate is a device of the table. -/
theorem c9_resolve_resolved_raises (T : MountMap) (u d m t : String)
    (_hres : map_fs d T u = some (m, t))
    (hsub : mget T (joinPath (dirname m) u) = none)
    (hdev : mget T m = none) :
    map_fs m T u = none := by
  simp only [map_fs, hsub, hdev]

/-- C9 (witness): the concrete table of the counterexample satisfies the
hypotheses of the amended statement. -/
theorem c9_witness :
    map_fs "/dev/sda1" [("/dev/sda1", ("/home", "ext4"))] "alice"
      = some ("/home", "ext4") ∧
    map_fs "/home" [("/dev/sda1", ("/home", "ext4"))] "alice" = none :=
  ⟨by decide,
   c9_resolve_resolved_raises [("/dev/sda1", ("/home", "ext4"))] "alice" "/dev/sda1"
     "/home" "ext4" (by decide) (by decide) (by decide)⟩

/-! ## Gateway failure behavior (claim C5) -/

/-- C5 (counterexample): with two gateway-eligible NFS mountpoints and a
failing gateway, `nfs_lustre_quota` dies on the first query: the result
is the uncaught exception (so the second mountpoint is never processed
and no done set is returned to the caller), and the failed mountpoint
`/nfs/a` had already been added to the internal done set — the exact
opposite of the claimed skip-and-defer behavior. -/
theorem c5_counterexample :
    nfs_lustre_quota "alice"
      [("srv:/a", ("/nfs/a", "nfs")), ("srv:/b", ("/nfs/b", "nfs"))]
      ⟨fun _ => some 500, fun _ => none, fun _ => "grp", [500]⟩
      [] (fun _ => none) ["/nfs"] (fun n => n) 0
      = Except.error ["/nfs/a"] := by
  rfl

/-- C5 (amended): when the gateway query for an eligible mountpoint fails,
the mountpoint has already been added to the done set (`done ++ [mpname]`)
and the uncaught exception aborts the whole loop — later list directories
and later mountpoints are not processed, and the caller receives no done
set at all. -/
theorem c5_gateway_failure_aborts (env : LustreEnv) (fgids : List ℕ)
    (fstype mpname ld : String) (lds : List String) (done : List String)
    (acc : List QBlock) (gid : ℕ)
    (hn : isNfs fstype = true) (hld : pyContains mpname ld = true)
    (hstat : env.statGid mpname = some gid)
    (hmem : gid ∈ env.mygids) (hnf : gid ∉ fgids)
    (hfail : env.gateway gid = none) :
    lustre_inner env fgids fstype mpname (ld :: lds) done acc
      = .error (done ++ [mpname]) ∧
    mpname ∈ done ++ [mpname] := by
  refine ⟨?_, by simp⟩
  simp only [lustre_inner, if_pos (And.intro hn hld), hstat, if_pos (And.intro hmem hnf), hfail]

/-- C5 (witness): the amended abort behavior at the counterexample's
concrete environment. -/
theorem c5_witness :
    lustre_inner ⟨fun _ => some 500, fun _ => none, fun _ => "grp", [500]⟩ []
      "nfs" "/nfs/a" ["/nfs"] [] [] = Except.error ["/nfs/a"] ∧
    "/nfs/a" ∈ ([] : List String) ++ ["/nfs/a"] :=
  c5_gateway_failure_aborts
    ⟨fun _ => some 500, fun _ => none, fun _ => "grp", [500]⟩ []
    "nfs" "/nfs/a" "/nfs" [] [] [] 500
    (by decide) (by decide) rfl (by decide) (by decide) rfl

/-! ## Dedup invariants (claims C6, C10) -/

/-- Rows printed by `print_quota` only mention mountpoints that key some
entry of the input blocks. -/
theorem print_quota_mp_mem (epochDate : ℤ → ℤ) (today : ℤ) (qs : List QBlock) (m : String)
    (hm : m ∈ prowMps (print_quota epochDate today qs)) : m ∈ allKeys qs := by
  simp only [prowMps, print_quota, List.mem_map, List.mem_flatMap] at hm
  obtain ⟨r, ⟨b, hb, hr⟩, hmp⟩ := hm
  obtain ⟨e, he, rfl⟩ := hr
  subst hmp
  simp only [allKeys, List.mem_flatMap, List.mem_map]
  exact ⟨b, hb, e, he, rfl⟩

/-- Fallback rows only mention mountpoints outside the done set handed to
`nfs_proj_quota`. -/
theorem proj_loop_mp_not_done (logname : String) (mps : MountMap) (done : List String)
    (access : String → Bool) (svfs : String → VStat) :
    ∀ (l : List (String × String × String)) (m : String),
      m ∈ jrowMps (proj_loop logname mps done access svfs l).1 → m ∉ done := by
  intro l
  induction l with
  | nil =>
    intro m hm
    simp [proj_loop, jrowMps] at hm
  | cons e rest ih =>
    intro m hm
    obtain ⟨fs, pr⟩ := e
    rw [proj_loop] at hm
    split at hm
    case h_1 ment ent hmf hmg =>
      split at hm
      case isTrue hcond =>
        split at hm
        case isTrue hacc =>
          dsimp only [] at hm
          split at hm
          case isTrue hz => simp [jrowMps] at hm
          case isFalse hz =>
            simp only [jrowMps, List.map_cons, List.mem_cons] at hm
            rcases hm with rfl | hm
            · exact hcond.2
            · exact ih m hm
        case isFalse hacc => exact ih m hm
      case isFalse hcond => exact ih m hm
    case h_2 hne => simp [jrowMps] at hm

/-- The inner gateway loop grows the done set monotonically, and every
mountpoint keyed by a block it appends is in the final done set. -/
theorem lustre_inner_inv (env : LustreEnv) (fgids : List ℕ) (fstype mpname : String) :
    ∀ (lds : List String) (done : List String) (acc : List QBlock)
      (done' : List String) (acc' : List QBlock),
      lustre_inner env fgids fstype mpname lds done acc = .ok (done', acc') →
      done ⊆ done' ∧ ∀ m, m ∈ allKeys acc' → m ∈ allKeys acc ∨ m ∈ done' := by
  intro lds
  induction lds with
  | nil =>
    intro done acc done' acc' h
    rw [lustre_inner] at h
    cases h
    exact ⟨fun x hx => hx, fun m hm => Or.inl hm⟩
  | cons ld lds ih =>
    intro done acc done' acc' h
    rw [lustre_inner] at h
    split at h
    case isTrue hcond =>
      dsimp only [] at h
      split at h
      case h_1 hstat =>
        obtain ⟨hsub, hkeys⟩ := ih _ _ _ _ h
        exact ⟨fun x hx => hsub (by simp [hx]), hkeys⟩
      case h_2 gid hstat =>
        split at h
        case isTrue hgid =>
          split at h
          case h_1 hgw => simp at h
          case h_2 body hgw => simp at h
        case isFalse hgid =>
          obtain ⟨hsub, hkeys⟩ := ih _ _ _ _ h
          exact ⟨fun x hx => hsub (by simp [hx]), hkeys⟩
    case isFalse hcond =>
      exact ih _ _ _ _ h

/-- A completed inner loop never appends a block: in Python 3 every
successful gateway response dies in TypeError before `myquota.append`,
and a failed one dies in `urlopen`. -/
theorem lustre_inner_ok_acc (env : LustreEnv) (fgids : List ℕ) (fstype mpname : String) :
    ∀ (lds : List String) (done : List String) (acc : List QBlock)
      (done' : List String) (acc' : List QBlock),
      lustre_inner env fgids fstype mpname lds done acc = .ok (done', acc') →
      acc' = acc := by
  intro lds
  induction lds with
  | nil =>
    intro done acc done' acc' h
    rw [lustre_inner] at h
    cases h
    rfl
  | cons ld lds ih =>
    intro done acc done' acc' h
    rw [lustre_inner] at h
    split at h
    case isTrue hcond =>
      dsimp only [] at h
      split at h
      case h_1 hstat => exact ih _ _ _ _ h
      case h_2 gid hstat =>
        split at h
        case isTrue hgid =>
          split at h
          case h_1 hgw => simp at h
          case h_2 body hgw => simp at h
        case isFalse hgid => exact ih _ _ _ _ h
    case isFalse hcond => exact ih _ _ _ _ h

/-- A completed outer loop never appends a block either. -/
theorem lustre_outer_ok_acc (logname : String) (fss : MountMap) (env : LustreEnv)
    (fgids : List ℕ) (ldirs : List String) :
    ∀ (entries : List (String × String × String)) (done : List String) (acc : List QBlock)
      (done' : List String) (acc' : List QBlock),
      lustre_outer logname fss env fgids ldirs entries done acc = .ok (done', acc') →
      acc' = acc := by
  intro entries
  induction entries with
  | nil =>
    intro done acc done' acc' h
    rw [lustre_outer] at h
    cases h
    rfl
  | cons e rest ih =>
    intro done acc done' acc' h
    obtain ⟨fs, pr⟩ := e
    rw [lustre_outer] at h
    split at h
    case h_1 ment ent hmf hmg =>
      split at h
      case h_1 d hinner => simp at h
      case h_2 done1 acc1 hinner =>
        rw [ih done1 acc1 done' acc' h]
        exact lustre_inner_ok_acc env fgids ent.2 ment.1 ldirs done acc done1 acc1 hinner
    case h_2 => simp at h

/-- `nfs_lustre_quota` renders no row in any completed run: its collected
`myquota` is always empty. -/
theorem nfs_lustre_rows_nil (logname : String) (fss : MountMap) (env : LustreEnv)
    (fgroups : List String) (grpGid : String → Option ℕ) (ldirs : List String)
    (epochDate : ℤ → ℤ) (today : ℤ) (rows : List PRow) (done2 : List String)
    (h : nfs_lustre_quota logname fss env fgroups grpGid ldirs epochDate today
      = .ok (rows, done2)) :
    rows = [] := by
  rw [nfs_lustre_quota] at h
  split at h
  case h_1 => simp at h
  case h_2 done1 myquota houter =>
    simp only [Except.ok.injEq, Prod.mk.injEq] at h
    obtain ⟨h1, h2⟩ := h
    have hnil : myquota = [] :=
      lustre_outer_ok_acc logname fss env (fgroups.filterMap grpGid) ldirs fss [] []
        done1 myquota houter
    subst hnil
    rw [← h1]
    rfl

/-- The outer gateway loop preserves the same invariant. -/
theorem lustre_outer_inv (logname : String) (fss : MountMap) (env : LustreEnv)
    (fgids : List ℕ) (ldirs : List String) :
    ∀ (entries : List (String × String × String)) (done : List String) (acc : List QBlock)
      (done' : List String) (acc' : List QBlock),
      lustre_outer logname fss env fgids ldirs entries done acc = .ok (done', acc') →
      done ⊆ done' ∧ ∀ m, m ∈ allKeys acc' → m ∈ allKeys acc ∨ m ∈ done' := by
  intro entries
  induction entries with
  | nil =>
    intro done acc done' acc' h
    rw [lustre_outer] at h
    cases h
    exact ⟨fun x hx => hx, fun m hm => Or.inl hm⟩
  | cons e rest ih =>
    intro done acc done' acc' h
    obtain ⟨fs, pr⟩ := e
    rw [lustre_outer] at h
    split at h
    case h_1 ment ent hmf hmg =>
      split at h
      case h_1 d hinner => simp at h
      case h_2 done1 acc1 hinner =>
        obtain ⟨hs1, hk1⟩ :=
          lustre_inner_inv env fgids ent.2 ment.1 ldirs done acc done1 acc1 hinner
        obtain ⟨hs2, hk2⟩ := ih done1 acc1 done' acc' h
        refine ⟨fun x hx => hs2 (hs1 hx), fun m hm => ?_⟩
        rcases hk2 m hm with hin | hin
        · rcases hk1 m hin with hin2 | hin2
          · exact Or.inl hin2
          · exact Or.inr (hs2 hin2)
        · exact Or.inr hin
    case h_2 => simp at h

/-- Every mountpoint printed by the gateway source is in the done set it
returns. -/
theorem nfs_lustre_rows_covered (logname : String) (fss : MountMap) (env : LustreEnv)
    (fgroups : List String) (grpGid : String → Option ℕ) (ldirs : List String)
    (epochDate : ℤ → ℤ) (today : ℤ) (rows : List PRow) (done2 : List String)
    (h : nfs_lustre_quota logname fss env fgroups grpGid ldirs epochDate today
      = .ok (rows, done2)) :
    ∀ m, m ∈ prowMps rows → m ∈ done2 := by
  intro m hm
  rw [nfs_lustre_quota] at h
  split at h
  case h_1 => simp at h
  case h_2 done1 myquota houter =>
    simp only [Except.ok.injEq, Prod.mk.injEq] at h
    obtain ⟨h1, h2⟩ := h
    subst h1
    subst h2
    have hk := print_quota_mp_mem epochDate today myquota m hm
    rcases (lustre_outer_inv logname fss env (fgroups.filterMap grpGid) ldirs fss [] []
      done1 myquota houter).2 m hk with hin | hin
    · simp [allKeys] at hin
    · exact hin

/-- Every mountpoint printed by the primary source is in its done set
(which is built from the parsed blocks before any filtering). -/
theorem run_quota_rows_covered (logname : String) (mp : MountMap) (lines : List String)
    (fgroups : List String) (myuid : ℕ) (access : String → Bool)
    (epochDate : ℤ → ℤ) (today : ℤ) (rows : List PRow) (done1 : List String)
    (h : run_quota logname mp lines fgroups myuid access epochDate today
      = some (rows, done1)) :
    ∀ m, m ∈ prowMps rows → m ∈ done1 := by
  intro m hm
  rw [run_quota] at h
  split at h
  case h_1 => simp at h
  case h_2 blocks hp =>
    simp only [Option.some.injEq, Prod.mk.injEq] at h
    obtain ⟨h1, h2⟩ := h
    subst h1
    subst h2
    have hk := print_quota_mp_mem epochDate today _ m hm
    simp only [allKeys, List.mem_flatMap, List.mem_map] at hk ⊢
    obtain ⟨b, ⟨b0, hb0, rfl⟩, e, he, rfl⟩ := hk
    have he0 : e ∈ b0.entries := (List.mem_filter.mp he).1
    have hb1 : b0 ∈ blocks := (List.mem_filter.mp hb0).1
    exact ⟨b0, hb1, e, he0, rfl⟩

/-- C6: the fallback's rendered mountpoints are disjoint from everything
the primary and gateway sources covered — their done sets and in
particular their rendered mountpoints. -/
theorem c6_fallback_disjoint (logname : String) (fss : MountMap) (lines : List String)
    (fgroups : List String) (myuid : ℕ) (access : String → Bool)
    (epochDate : ℤ → ℤ) (today : ℤ) (env : LustreEnv) (grpGid : String → Option ℕ)
    (ldirs : List String) (svfs : String → VStat) (res : RunOut) (m : String)
    (hrun : fancy_main logname fss lines fgroups myuid access epochDate today env grpGid
      ldirs svfs = some res)
    (hm : m ∈ jrowMps res.jrows) :
    m ∉ res.done1 ∧ m ∉ res.done2 ∧ m ∉ prowMps res.prows ∧ m ∉ prowMps res.lrows := by
  rw [fancy_main] at hrun
  split at hrun
  case h_1 => simp at hrun
  case h_2 pr hr =>
    split at hrun
    case h_1 => simp at hrun
    case h_2 lr hl =>
      simp only [Option.some.injEq] at hrun
      subst hrun
      have hnd := proj_loop_mp_not_done logname fss (pr.2 ++ lr.2) access svfs fss m hm
      have hnd1 : m ∉ pr.2 := fun hx => hnd (List.mem_append.mpr (Or.inl hx))
      have hnd2 : m ∉ lr.2 := fun hx => hnd (List.mem_append.mpr (Or.inr hx))
      refine ⟨hnd1, hnd2, ?_, ?_⟩
      · intro hx
        exact hnd1 (run_quota_rows_covered logname fss lines fgroups myuid access
          epochDate today pr.1 pr.2 hr m hx)
      · intro hx
        exact hnd2 (nfs_lustre_rows_covered logname fss env fgroups grpGid ldirs
          epochDate today lr.1 lr.2 hl m hx)

/-- C6 (witness): a run with one uncovered NFS mount — the fallback prints
it and it is indeed outside both done sets and both row lists. -/
theorem c6_witness :
    ("/s" : String) ∈ jrowMps [⟨"/s", "   5.1k", 56, "   9.2k"⟩] ∧
    (("/s" : String) ∉ ([] : List String) ∧ ("/s" : String) ∉ ([] : List String) ∧
     ("/s" : String) ∉ prowMps [] ∧ ("/s" : String) ∉ prowMps []) :=
  ⟨by decide,
   c6_fallback_disjoint "alice" [("srv:/s", ("/s", "nfs"))] [] [] 1000 (fun _ => true)
     (fun n => n) 0 ⟨fun _ => some 500, fun _ => none, fun _ => "grp", [500]⟩
     (fun _ => none) [] (fun _ => ⟨10, 5, 4, 1024⟩)
     ⟨[], [], [], [], [⟨"/s", "   5.1k", 56, "   9.2k"⟩], true⟩ "/s"
     (by rfl) (by decide)⟩

/-- C10: every parsed mountpoint enters the done set before the
group/permission filtering runs; a mountpoint whose rows the filters
remove is therefore never reported again by the project-quota fallback,
nor by the gateway source — the gateway renders nothing in any completed
run (in Python 3 its success path always dies in TypeError on the bytes
response, and a failed query dies in `urlopen`, so `print_quota(myquota)`
is only ever reached with an empty list). -/
theorem c10_done_before_filtering (logname : String) (fss : MountMap) (lines : List String)
    (fgroups : List String) (myuid : ℕ) (access : String → Bool)
    (epochDate : ℤ → ℤ) (today : ℤ) (env : LustreEnv) (grpGid : String → Option ℕ)
    (ldirs : List String) (svfs : String → VStat) (blocks : List QBlock) (res : RunOut)
    (hparse : parse_quota_lines logname fss lines [] = some blocks)
    (hrun : fancy_main logname fss lines fgroups myuid access epochDate today env grpGid
      ldirs svfs = some res) :
    res.done1 = allKeys blocks ∧ res.lrows = [] ∧
    ∀ m, m ∈ res.done1 → m ∉ jrowMps res.jrows ∧ m ∉ prowMps res.lrows := by
  rw [fancy_main] at hrun
  split at hrun
  case h_1 => simp at hrun
  case h_2 pr hr =>
    split at hrun
    case h_1 => simp at hrun
    case h_2 lr hl =>
      simp only [Option.some.injEq] at hrun
      subst hrun
      have hnil : lr.1 = [] :=
        nfs_lustre_rows_nil logname fss env fgroups grpGid ldirs epochDate today
          lr.1 lr.2 hl
      refine ⟨?_, hnil, ?_⟩
      · rw [run_quota, hparse] at hr
        simp only [Option.some.injEq] at hr
        rw [← hr]
      · intro m hmem
        constructor
        · intro hjm
          exact proj_loop_mp_not_done logname fss (pr.2 ++ lr.2) access svfs fss m hjm
            (List.mem_append.mpr (Or.inl hmem))
        · show m ∉ prowMps lr.1
          rw [hnil]
          simp [prowMps]

/-- C10 (witness): a group block suppressed by the filter block-list still
marks its mountpoint done; neither the fallback nor the (always-empty)
gateway output reports it. -/
theorem c10_witness :
    RunOut.done1 ⟨[], ["/g"], [], [], [], true⟩ =
      allKeys [⟨"group", "badgrp", [("/g", ⟨1048576, 2097152, 4194304, Sum.inl 0⟩)]⟩] ∧
    RunOut.lrows ⟨[], ["/g"], [], [], [], true⟩ = [] ∧
    (("/g" : String) ∉ jrowMps (RunOut.jrows ⟨[], ["/g"], [], [], [], true⟩) ∧
     ("/g" : String) ∉ prowMps (RunOut.lrows ⟨[], ["/g"], [], [], [], true⟩)) := by
  have h := c10_done_before_filtering "alice" [("srv:/g", ("/g", "nfs"))]
    ["Disk quotas for group badgrp (gid 500): ", "srv:/g 1024 2048 4096 0 1 0 0"]
    ["badgrp"] 1000 (fun _ => true) (fun n => n) 0
    ⟨fun _ => some 500, fun _ => none, fun _ => "grp", [500]⟩
    (fun _ => none) [] (fun _ => ⟨10, 5, 4, 1024⟩)
    [⟨"group", "badgrp", [("/g", ⟨1048576, 2097152, 4194304, Sum.inl 0⟩)]⟩]
    ⟨[], ["/g"], [], [], [], true⟩ (by rfl) (by rfl)
  exact ⟨h.1, h.2.1, h.2.2 "/g" (by decide)⟩

end FancyQuota
